import Mathlib

/-!
Verification of the event-tracking core of `tarkov-status-webhook`
(`src/main.rs`), a poll loop that fetches a list of status events,
notifies a chat webhook about new or still-open events, and prunes
events that disappeared upstream.

The embedding below follows the source closely:
* `Event` mirrors the `Event` struct (timestamps as `Int` Unix seconds).
* The tracked state `saved_events : HashMap<String, Event>` is modelled
  as an association list observed only through `findEvent`; `insertEvent`
  conses the new binding in front, which gives the same `findEvent`
  observations as `HashMap::insert`.
* `processEvents` is the per-tick `for` loop of `main` (lines 119-181):
  it looks the event id up in the *evolving* map, skips the event when
  the stored record is already resolved (the `continue` also skips the
  `insert`), and otherwise records a notification and inserts the event.
* `retainCurrent` is the `saved_events.retain(..)` cleanup (line 184).
* `reconcile` packages one tick: the notified events in snapshot order,
  and the committed new state.
-/

namespace TarkovStatus

/-- `EventType` from `src/main.rs` lines 14-21: a `serde_repr` enum with a
`serde(other)` catch-all, so decoding never fails. -/
inductive EventType where
  | Unknown
  | UpdateInstallation
  | ServerIssues
deriving DecidableEq, Repr

/-- Decoding of the numeric wire code, as `serde_repr` with the
`serde(other)` attribute performs it: 1 and 2 map to the named variants,
every other code (0 included) maps to `Unknown`; no code is rejected. -/
def decodeEventType (code : Nat) : EventType :=
  if code = 1 then EventType.UpdateInstallation
  else if code = 2 then EventType.ServerIssues
  else EventType.Unknown

/-- `impl fmt::Display for EventType` (lines 23-31). The wildcard arm of
the source `match` covers exactly the `Unknown` variant. -/
def EventType.display : EventType → String
  | EventType.UpdateInstallation => "Installation de mise à jour"
  | EventType.ServerIssues => "Problèmes de serveur"
  | EventType.Unknown => "Inconnu"

/-- The `Event` struct (lines 33-43). `time` and `solve_time` are the Unix
timestamps the code extracts from the `DateTime` values; `solve_time =
none` means the incident is still open. -/
structure Event where
  id : String
  content : String
  event_type : EventType
  time : Int
  solve_time : Option Int
deriving DecidableEq, Repr

/-- The tracked state `saved_events : HashMap<String, Event>`, modelled as
an association list observed through `findEvent`. -/
abbrev EventMap := List (String × Event)

/-- `saved_events.get(&id)`: the value of the first binding of `id`. -/
def findEvent (m : EventMap) (k : String) : Option Event :=
  (m.find? (fun p => p.1 == k)).map Prod.snd

/-- `saved_events.insert(id, event)`: consing in front gives the same
`findEvent` observations as the `HashMap` replacement. -/
def insertEvent (m : EventMap) (k : String) (v : Event) : EventMap :=
  (k, v) :: m

/-- The guard of lines 120-124: the event is skipped (`continue`) exactly
when the map holds a record for its id whose `solve_time` is `Some`. -/
def storedResolved (saved : EventMap) (k : String) : Bool :=
  match findEvent saved k with
  | some se => se.solve_time != none
  | none => false

/-- The `for event in events.iter()` loop of `main` (lines 119-181),
without the webhook send: returns the events notified, in iteration
order, and the map after all the inserts.  The skip branch performs no
insert, so an already-resolved stored record survives unchanged. -/
def processEvents : EventMap → List Event → List Event × EventMap
  | saved, [] => ([], saved)
  | saved, e :: rest =>
    if storedResolved saved e.id then
      processEvents saved rest
    else
      let p := processEvents (insertEvent saved e.id e) rest
      (e :: p.1, p.2)

/-- `saved_events.retain(|k, _| events.iter().any(|e| e.id == *k))`
(line 184): only ids occurring in the latest snapshot survive. -/
def retainCurrent (m : EventMap) (events : List Event) : EventMap :=
  m.filter (fun p => events.any (fun e => e.id == p.1))

/-- One full tick of the tracker: the loop followed by the cleanup.
Returns `(events_to_notify, new_state)`. -/
def reconcile (saved : EventMap) (events : List Event) :
    List Event × EventMap :=
  let p := processEvents saved events
  (p.1, retainCurrent p.2 events)

/-- The loop of `main` again, this time keeping the webhook send visible:
`sendOk e` says whether `webhook_client.send` succeeded for `e`.  A failed
send is only logged (lines 176-178; the failures are collected in the
second component here) and the `insert` of line 180 runs regardless. -/
def processEventsSend (sendOk : Event → Bool) :
    EventMap → List Event → List Event × List Event × EventMap
  | saved, [] => ([], [], saved)
  | saved, e :: rest =>
    if storedResolved saved e.id then
      processEventsSend sendOk saved rest
    else
      let p := processEventsSend sendOk (insertEvent saved e.id e) rest
      (e :: p.1, (if sendOk e then p.2.1 else e :: p.2.1), p.2.2)

/-- One tick with the send outcomes visible: `(notified, failed sends,
new state)`. -/
def reconcileSend (sendOk : Event → Bool) (saved : EventMap)
    (events : List Event) : List Event × List Event × EventMap :=
  let p := processEventsSend sendOk saved events
  (p.1, p.2.1, retainCurrent p.2.2 events)

/-- One entry of the DeepL response list (`Translation`, lines 45-48). -/
structure Translation where
  text : String
deriving DecidableEq, Repr

/-- The DeepL response body (`DeeplResponse`, lines 50-53). -/
structure DeeplResponse where
  translations : List Translation
deriving DecidableEq, Repr

/-- What the network can hand `try_translate`: a transport error
(the outer `Err` of `send()`), a non-success HTTP status (the `Err` of
`error_for_status()`), or a success response whose body either parses as a
`DeeplResponse` or does not (`resp.json()`). -/
inductive DeeplOutcome where
  | transportError (msg : String)
  | httpError (msg : String)
  | success (body : Except String DeeplResponse)

/-- `try_translate` (lines 59-82), as a function of the input text and of
the network outcome.  `none` models the panic of the
`resp.json().await.unwrap()` on line 71: on a success response whose body
fails to deserialize, the function does not return to its caller. -/
def try_translate (text : String) (outcome : DeeplOutcome) : Option String :=
  match outcome with
  | DeeplOutcome.transportError _ => some text
  | DeeplOutcome.httpError _ => some text
  | DeeplOutcome.success (Except.error _) => none
  | DeeplOutcome.success (Except.ok r) =>
    match r.translations with
    | t :: _ => some t.text
    | [] => some text

/-- One labeled field of the outbound embed (`name`, `value`, `inline`
as passed to `embed.field(..)`). -/
structure EmbedField where
  name : String
  value : String
  inline : Bool
deriving DecidableEq, Repr

/-- The embed built by the closure given to `webhook_client.send`
(lines 129-173). -/
structure Embed where
  title : String
  thumbnail : String
  description : String
  url : String
  fields : List EmbedField
  color : String
deriving DecidableEq, Repr

/-- The outbound message: a username plus one embed. -/
structure Message where
  username : String
  embed : Embed
deriving DecidableEq, Repr

/-- The Discord relative-timestamp tag built by
`format!("<t:\x7b\x7d:R>", ..)` on lines 147 and 159. -/
def timestampTag (t : Int) : String := "<t:" ++ toString t ++ ":R>"

/-- The message-building closure of lines 129-173 as a pure function of
the event and of the (possibly translated) content.  It is total: every
event, whatever its `event_type` and `solve_time`, yields a message. -/
def buildMessage (e : Event) (translated_content : String) : Message :=
  { username := "Escape from Tarkov Status"
    embed :=
      { title := e.event_type.display
        thumbnail := "https://www.escapefromtarkov.com/themes/eft/images/logo.png"
        description := translated_content
        url := "https://status.escapefromtarkov.com"
        fields :=
          match e.solve_time with
          | some solve_time =>
            [{ name := "Résolu depuis", value := timestampTag solve_time, inline := true },
             { name := "Status", value := "Résolu :white_check_mark:", inline := false }]
          | none =>
            [{ name := "Depuis", value := timestampTag e.time, inline := true },
             { name := "Status", value := "Hors ligne :negative_squared_cross_mark:",
               inline := false }]
        color :=
          match e.solve_time with
          | some _ => "65280"
          | none => "16711680" } }

/-- Sample open event used in concrete checks. -/
def sampleOpen : Event :=
  { id := "e1", content := "servers down", event_type := EventType.ServerIssues,
    time := 100, solve_time := none }

/-- Sample resolved event with id "e1" and content "a". -/
def sampleResolvedA : Event :=
  { id := "e1", content := "a", event_type := EventType.ServerIssues,
    time := 100, solve_time := some 200 }

/-- Sample resolved event with id "e1" and content "b". -/
def sampleResolvedB : Event :=
  { id := "e1", content := "b", event_type := EventType.ServerIssues,
    time := 100, solve_time := some 200 }

/-- Three sample open events with distinct ids, used for the
order-preservation check. -/
def sampleE1 : Event :=
  { id := "id1", content := "one", event_type := EventType.UpdateInstallation,
    time := 10, solve_time := none }

/-- Second sample event with a distinct id. -/
def sampleE2 : Event :=
  { id := "id2", content := "two", event_type := EventType.ServerIssues,
    time := 20, solve_time := none }

/-- Third sample event with a distinct id. -/
def sampleE3 : Event :=
  { id := "id3", content := "three", event_type := EventType.Unknown,
    time := 30, solve_time := none }

theorem findEvent_insert (m : EventMap) (k k' : String) (v : Event) :
    findEvent (insertEvent m k v) k' = if k = k' then some v else findEvent m k' := by
  by_cases h : k = k' <;> simp [findEvent, insertEvent, List.find?_cons, h]

theorem storedResolved_insert_ne (m : EventMap) (k k' : String) (v : Event)
    (h : k ≠ k') : storedResolved (insertEvent m k v) k' = storedResolved m k' := by
  simp [storedResolved, findEvent_insert, h]

theorem processEvents_fst_sublist (events : List Event) (saved : EventMap) :
    (processEvents saved events).1.Sublist events := by
  induction events generalizing saved with
  | nil => simp [processEvents]
  | cons e rest ih =>
    by_cases h : storedResolved saved e.id
    · simpa [processEvents, h] using (ih saved).cons e
    · simpa [processEvents, h] using (ih (insertEvent saved e.id e)).cons₂ e

theorem processEvents_resolved_skip (events : List Event) (saved : EventMap)
    (k : String) (hres : storedResolved saved k = true) :
    (∀ e ∈ (processEvents saved events).1, e.id ≠ k) ∧
      findEvent (processEvents saved events).2 k = findEvent saved k := by
  induction events generalizing saved with
  | nil => simp [processEvents]
  | cons e rest ih =>
    by_cases h : storedResolved saved e.id
    · simpa [processEvents, h] using ih saved hres
    · have hne : e.id ≠ k := fun habs => h (by rw [habs]; exact hres)
      have hres' : storedResolved (insertEvent saved e.id e) k = true := by
        rw [storedResolved_insert_ne saved e.id k e hne]; exact hres
      have hrec := ih (insertEvent saved e.id e) hres'
      refine ⟨?_, ?_⟩
      · intro x hx
        simp only [processEvents, h, if_neg, Bool.false_eq_true, not_false_iff,
          ite_false, List.mem_cons] at hx
        rcases hx with hx | hx
        · rw [hx]; exact hne
        · exact hrec.1 x hx
      · simp only [processEvents, h, Bool.false_eq_true, not_false_iff, ite_false]
        rw [hrec.2, findEvent_insert, if_neg hne]

theorem processEvents_mem_notify_iff (events : List Event) (saved : EventMap)
    (hnd : (events.map Event.id).Nodup) (e : Event) (he : e ∈ events) :
    e ∈ (processEvents saved events).1 ↔ storedResolved saved e.id = false := by
  induction events generalizing saved with
  | nil => cases he
  | cons a rest ih =>
    rw [List.map_cons, List.nodup_cons] at hnd
    by_cases h : storedResolved saved a.id
    · rcases List.mem_cons.mp he with he' | he'
      · subst he'
        simp only [processEvents, h, ite_true]
        refine iff_of_false (fun hmem => hnd.1 ?_) (by simp)
        exact List.mem_map.mpr ⟨e, (processEvents_fst_sublist rest saved).subset hmem, rfl⟩
      · simpa [processEvents, h] using ih saved hnd.2 he'
    · rcases List.mem_cons.mp he with he' | he'
      · subst he'
        simp [processEvents, h]
      · have hne : e.id ≠ a.id := by
          intro habs
          exact hnd.1 (habs ▸ List.mem_map.mpr ⟨e, he', rfl⟩)
        have := ih (insertEvent saved a.id a) hnd.2 he'
        rw [storedResolved_insert_ne saved a.id e.id a (fun hx => hne hx.symm)] at this
        simp only [processEvents, h, Bool.false_eq_true, not_false_iff, ite_false,
          List.mem_cons]
        rw [← this]
        constructor
        · rintro (rfl | hx)
          · exact absurd rfl hne
          · exact hx
        · exact Or.inr

theorem findEvent_processEvents_not_mem (events : List Event) (saved : EventMap)
    (k : String) (hk : ∀ e ∈ events, e.id ≠ k) :
    findEvent (processEvents saved events).2 k = findEvent saved k := by
  induction events generalizing saved with
  | nil => simp [processEvents]
  | cons e rest ih =>
    have hke : e.id ≠ k := hk e (List.mem_cons_self e rest)
    have hk' : ∀ x ∈ rest, x.id ≠ k := fun x hx => hk x (List.mem_cons_of_mem e hx)
    by_cases h : storedResolved saved e.id
    · simpa [processEvents, h] using ih saved hk'
    · simp only [processEvents, h, Bool.false_eq_true, not_false_iff, ite_false]
      rw [ih (insertEvent saved e.id e) hk', findEvent_insert, if_neg hke]

theorem findEvent_processEvents_mem (events : List Event) (saved : EventMap)
    (hnd : (events.map Event.id).Nodup) (e : Event) (he : e ∈ events) :
    findEvent (processEvents saved events).2 e.id =
      if storedResolved saved e.id then findEvent saved e.id else some e := by
  induction events generalizing saved with
  | nil => cases he
  | cons a rest ih =>
    rw [List.map_cons, List.nodup_cons] at hnd
    rcases List.mem_cons.mp he with he' | he'
    · subst he'
      have hrest : ∀ x ∈ rest, x.id ≠ e.id := by
        intro x hx habs
        exact hnd.1 (habs ▸ List.mem_map.mpr ⟨x, hx, rfl⟩)
      by_cases h : storedResolved saved e.id
      · simp only [processEvents, h, ite_true]
        rw [findEvent_processEvents_not_mem rest saved e.id hrest]
      · simp only [processEvents, h, Bool.false_eq_true, not_false_iff, ite_false]
        rw [findEvent_processEvents_not_mem rest _ e.id hrest, findEvent_insert,
          if_pos rfl]
    · have hne : e.id ≠ a.id := by
        intro habs
        exact hnd.1 (habs ▸ List.mem_map.mpr ⟨e, he', rfl⟩)
      by_cases h : storedResolved saved a.id
      · simpa [processEvents, h] using ih saved hnd.2 he'
      · simp only [processEvents, h, Bool.false_eq_true, not_false_iff, ite_false]
        rw [ih (insertEvent saved a.id a) hnd.2 he',
          storedResolved_insert_ne saved a.id e.id a (fun hx => hne hx.symm),
          findEvent_insert saved a.id e.id a,
          if_neg (show ¬ a.id = e.id from fun hx => hne hx.symm)]

theorem findEvent_processEvents_isSome (events : List Event) (saved : EventMap)
    (k : String) :
    (findEvent (processEvents saved events).2 k).isSome =
      ((findEvent saved k).isSome || events.any (fun e => e.id == k)) := by
  induction events generalizing saved with
  | nil => simp [processEvents]
  | cons e rest ih =>
    by_cases h : storedResolved saved e.id
    · by_cases hek : e.id = k
      · have hsome : (findEvent saved k).isSome = true := by
          subst hek
          rw [storedResolved] at h
          cases hf : findEvent saved e.id with
          | none => rw [hf] at h; simp at h
          | some se => simp
        simp [processEvents, h, ih saved, hsome]
      · have hbe : (e.id == k) = false := beq_eq_false_iff_ne.mpr hek
        simp [processEvents, h, ih saved, hbe]
    · simp only [processEvents, h, Bool.false_eq_true, not_false_iff, ite_false]
      rw [ih (insertEvent saved e.id e)]
      by_cases hek : e.id = k
      · simp [findEvent_insert, hek]
      · have hbe : (e.id == k) = false := beq_eq_false_iff_ne.mpr hek
        simp [findEvent_insert, hek, hbe]

theorem findEvent_cons (p : String × Event) (m : EventMap) (k : String) :
    findEvent (p :: m) k = if p.1 = k then some p.2 else findEvent m k := by
  by_cases h : p.1 = k <;> simp [findEvent, List.find?_cons, h]

theorem findEvent_retainCurrent (m : EventMap) (events : List Event) (k : String) :
    findEvent (retainCurrent m events) k =
      if events.any (fun e => e.id == k) then findEvent m k else none := by
  induction m with
  | nil => simp [retainCurrent, findEvent]
  | cons p m ih =>
    rw [retainCurrent] at ih ⊢
    rw [List.filter_cons]
    by_cases hp : events.any (fun e => e.id == p.1) = true
    · rw [if_pos hp, findEvent_cons]
      by_cases hpk : p.1 = k
      · subst hpk
        rw [if_pos rfl, if_pos hp, findEvent_cons, if_pos rfl]
      · rw [if_neg hpk, ih, findEvent_cons, if_neg hpk]
    · rw [if_neg hp, ih]
      by_cases hk : events.any (fun e => e.id == k) = true
      · have hpk : p.1 ≠ k := fun habs => hp (by rw [habs]; exact hk)
        rw [if_pos hk, if_pos hk, findEvent_cons, if_neg hpk]
      · rw [if_neg hk, if_neg hk]

theorem processEventsSend_eq (sendOk : Event → Bool) (events : List Event)
    (saved : EventMap) :
    (processEventsSend sendOk saved events).1 = (processEvents saved events).1 ∧
      (processEventsSend sendOk saved events).2.2 = (processEvents saved events).2 := by
  induction events generalizing saved with
  | nil => simp [processEventsSend, processEvents]
  | cons e rest ih =>
    by_cases h : storedResolved saved e.id
    · simpa [processEventsSend, processEvents, h] using ih saved
    · have hrec := ih (insertEvent saved e.id e)
      simp [processEventsSend, processEvents, h, hrec.1, hrec.2]

/-- C1: if the stored record for an event's id in the previous state has
`resolved_at = Some(_)` (`solve_time` here), `reconcile` does not include
that event in `events_to_notify`; in particular repeated identical
snapshots containing an already-stored resolved event never re-notify
for it. -/
theorem c1_resolved_never_renotified (saved : EventMap) (events : List Event)
    (e se : Event) (hfind : findEvent saved e.id = some se)
    (hres : se.solve_time ≠ none) :
    e ∉ (reconcile saved events).1 := by
  have hsr : storedResolved saved e.id = true := by
    rw [storedResolved, hfind]
    exact bne_iff_ne.mpr hres
  have hskip := (processEvents_resolved_skip events saved e.id hsr).1
  intro hmem
  exact hskip e hmem rfl

/-- Witness for C1 at a concrete input: a stored resolved event replayed
unchanged is not notified. -/
theorem c1_resolved_never_renotified_witness :
    sampleResolvedA ∉ (reconcile [("e1", sampleResolvedA)] [sampleResolvedA]).1 :=
  c1_resolved_never_renotified [("e1", sampleResolvedA)] [sampleResolvedA]
    sampleResolvedA sampleResolvedA (by decide) (by decide)

/-- C2 counterexample: the claim quantifies over every snapshot, but when
the same id occurs twice — first as a resolved record — the second
occurrence's id is absent from the previous state and yet it is not
notified, because the loop consults the evolving map into which the first
occurrence was already inserted. -/
theorem c2_counterexample :
    findEvent [] sampleResolvedB.id = none ∧
      sampleResolvedB ∈ [sampleResolvedA, sampleResolvedB] ∧
      sampleResolvedB ∉ (reconcile [] [sampleResolvedA, sampleResolvedB]).1 := by
  decide

/-- C2 (amended): for snapshots whose event ids are pairwise distinct,
every event whose id is absent from the previous state is included in
`events_to_notify`; in particular `reconcile {} [E1 open]` notifies
exactly `[E1]` and produces the state holding E1 under its id. -/
theorem c2_new_event_notified (saved : EventMap) (events : List Event)
    (e : Event) (he : e ∈ events) (hnd : (events.map Event.id).Nodup)
    (habs : findEvent saved e.id = none) :
    e ∈ (reconcile saved events).1 ∧
      reconcile [] [sampleOpen] = ([sampleOpen], [("e1", sampleOpen)]) := by
  have hsr : storedResolved saved e.id = false := by
    rw [storedResolved, habs]
  exact ⟨(processEvents_mem_notify_iff events saved hnd e he).mpr hsr, by decide⟩

/-- Witness for C2 at the concrete input of the claim: a fresh open event
is notified. -/
theorem c2_new_event_notified_witness :
    sampleOpen ∈ (reconcile [] [sampleOpen]).1 :=
  (c2_new_event_notified [] [sampleOpen] sampleOpen (by decide) (by decide)
    (by decide)).1

/-- C3 counterexample: an event whose content never changes while open is
notified on all of three successive polls — more than the two lifetime
notifications the claim allows — because a stored *open* record is
re-notified on every re-appearance. -/
theorem c3_counterexample :
    (reconcile [] [sampleOpen]).1.length = 1 ∧
      (reconcile (reconcile [] [sampleOpen]).2 [sampleOpen]).1.length = 1 ∧
      (reconcile (reconcile (reconcile [] [sampleOpen]).2 [sampleOpen]).2
          [sampleOpen]).1.length = 1 := by
  decide

/-- C3 (amended): for snapshots with pairwise-distinct ids, an event in
the snapshot is notified exactly when its stored record is absent or
still open; hence it is re-notified on every poll while open — even with
unchanged content — and never again once its stored record is resolved
(so at most one notification occurs after resolution). -/
theorem c3_notify_iff_not_stored_resolved (saved : EventMap)
    (events : List Event) (e : Event) (he : e ∈ events)
    (hnd : (events.map Event.id).Nodup) :
    e ∈ (reconcile saved events).1 ↔ storedResolved saved e.id = false :=
  processEvents_mem_notify_iff events saved hnd e he

/-- Witness for C3's amended statement: a stored open event replayed
unchanged is notified again. -/
theorem c3_notify_iff_not_stored_resolved_witness :
    sampleOpen ∈ (reconcile [("e1", sampleOpen)] [sampleOpen]).1 :=
  (c3_notify_iff_not_stored_resolved [("e1", sampleOpen)] [sampleOpen]
    sampleOpen (by decide) (by decide)).mpr (by decide)

/-- C4: the new state produced by `reconcile` has exactly the ids that
occur in the latest snapshot: an id is tracked afterwards iff some
snapshot event carries it, so every id absent from the snapshot is
evicted unconditionally. -/
theorem c4_state_keys_eq_snapshot_ids (saved : EventMap) (events : List Event)
    (k : String) :
    (findEvent (reconcile saved events).2 k).isSome
      = events.any (fun e => e.id == k) := by
  have h2 : (reconcile saved events).2
      = retainCurrent (processEvents saved events).2 events := rfl
  rw [h2, findEvent_retainCurrent]
  by_cases hk : events.any (fun e => e.id == k) = true
  · rw [if_pos hk, hk, findEvent_processEvents_isSome, hk, Bool.or_true]
  · rw [if_neg hk]
    rw [Bool.not_eq_true] at hk
    rw [hk]
    rfl

/-- C5 counterexample: the previous state is not fully replaced by the
latest snapshot.  With a stored resolved record for "e1" and a snapshot
record for "e1" with different content, the new state still holds the old
stored record, not the latest polled representation. -/
theorem c5_counterexample :
    sampleResolvedA ≠ sampleResolvedB ∧
      findEvent (reconcile [("e1", sampleResolvedA)] [sampleResolvedB]).2 "e1"
        = some sampleResolvedA := by
  decide

/-- C5 (amended): for snapshots with pairwise-distinct ids, the new state
maps each snapshot id to that event's latest polled representation —
except an id whose stored record already had `resolved_at = Some(_)`,
which keeps its previously stored record unchanged (the skip branch also
skips the insert). -/
theorem c5_state_maps_to_latest_unless_resolved (saved : EventMap)
    (events : List Event) (e : Event) (he : e ∈ events)
    (hnd : (events.map Event.id).Nodup) :
    findEvent (reconcile saved events).2 e.id =
      if storedResolved saved e.id then findEvent saved e.id else some e := by
  have h2 : (reconcile saved events).2
      = retainCurrent (processEvents saved events).2 events := rfl
  have hany : events.any (fun x => x.id == e.id) = true :=
    List.any_eq_true.mpr ⟨e, he, by simp⟩
  rw [h2, findEvent_retainCurrent, if_pos hany,
    findEvent_processEvents_mem events saved hnd e he]

/-- Witness for C5's amended statement at the counterexample input: the
resolved branch of the amended description. -/
theorem c5_state_maps_to_latest_unless_resolved_witness :
    findEvent (reconcile [("e1", sampleResolvedA)] [sampleResolvedB]).2
        sampleResolvedB.id
      = if storedResolved [("e1", sampleResolvedA)] sampleResolvedB.id
          then findEvent [("e1", sampleResolvedA)] sampleResolvedB.id
          else some sampleResolvedB :=
  c5_state_maps_to_latest_unless_resolved [("e1", sampleResolvedA)]
    [sampleResolvedB] sampleResolvedB (by decide) (by decide)

/-- C6: an empty snapshot (e.g. after a failed upstream fetch) yields no
notifications and an empty new state, whatever the previous state held. -/
theorem c6_empty_snapshot_evicts_all (saved : EventMap) :
    reconcile saved [] = ([], []) := by
  simp [reconcile, processEvents, retainCurrent]

/-- C7: `events_to_notify` is a subsequence of the snapshot in snapshot
order; concretely, the snapshot `[E3, E1, E2]` of fresh events is notified
exactly in that order. -/
theorem c7_notify_order_preserved (saved : EventMap) (events : List Event) :
    (reconcile saved events).1.Sublist events ∧
      (reconcile [] [sampleE3, sampleE1, sampleE2]).1
        = [sampleE3, sampleE1, sampleE2] := by
  refine ⟨processEvents_fst_sublist events saved, by decide⟩

/-- C8: the claim says `try_translate` never raises a failure to its
caller, but at the failing input — a success HTTP response whose body does
not deserialize as a `DeeplResponse` — the `unwrap()` on the parsed body
panics (modelled as `none`) instead of returning the original text.  On a
transport error, a non-success status or an empty result list the original
text is returned, and a non-empty result list yields the first
translation, as the claim states for those cases. -/
theorem c8_translate_panics_on_malformed_body :
    try_translate "hello" (DeeplOutcome.success (Except.error "malformed"))
        = none ∧
      try_translate "hello" (DeeplOutcome.transportError "timeout")
        = some "hello" ∧
      try_translate "hello" (DeeplOutcome.httpError "403") = some "hello" ∧
      try_translate "hello" (DeeplOutcome.success (Except.ok ⟨[]⟩))
        = some "hello" ∧
      try_translate "hello" (DeeplOutcome.success (Except.ok ⟨[⟨"bonjour"⟩]⟩))
        = some "bonjour" :=
  ⟨rfl, rfl, rfl, rfl, rfl⟩

/-- C9: any numeric type code other than 1 and 2 decodes successfully to
the `Unknown` variant, that variant displays as the generic label
"Inconnu", and an event carrying it still flows through the message
formatter, which is total: it produces the usual embed with the generic
title and both labeled fields. -/
theorem c9_unknown_code_flows_through (code : Nat) (content : String)
    (e : Event) (h1 : code ≠ 1) (h2 : code ≠ 2)
    (he : e.event_type = decodeEventType code) :
    decodeEventType code = EventType.Unknown ∧
      (buildMessage e content).embed.title = "Inconnu" ∧
      (buildMessage e content).embed.fields.length = 2 := by
  have hdec : decodeEventType code = EventType.Unknown := by
    rw [decodeEventType, if_neg h1, if_neg h2]
  refine ⟨hdec, ?_, ?_⟩
  · simp [buildMessage, he, hdec, EventType.display]
  · cases hst : e.solve_time <;> simp [buildMessage, hst]

/-- Witness for C9 at code 7: decoding yields `Unknown` and the formatted
message carries the generic title. -/
theorem c9_unknown_code_flows_through_witness :
    decodeEventType 7 = EventType.Unknown ∧
      (buildMessage
          { id := "x", content := "c", event_type := decodeEventType 7,
            time := 0, solve_time := none } "c").embed.title = "Inconnu" ∧
      (buildMessage
          { id := "x", content := "c", event_type := decodeEventType 7,
            time := 0, solve_time := none } "c").embed.fields.length = 2 :=
  c9_unknown_code_flows_through 7 "c" _ (by decide) (by decide) rfl

/-- C10: the committed state does not depend on webhook-send outcomes:
for every send oracle, the notified list and the new state coincide with
those of `reconcile`; moreover, for snapshots with pairwise-distinct ids,
every notified event is stored under its id regardless of its send
outcome, and a notified *resolved* event is never notified again by any
later reconcile started from the committed state. -/
theorem c10_send_failure_does_not_block_commit (sendOk : Event → Bool)
    (saved : EventMap) (events : List Event) :
    (reconcileSend sendOk saved events).1 = (reconcile saved events).1 ∧
      (reconcileSend sendOk saved events).2.2 = (reconcile saved events).2 ∧
      ((events.map Event.id).Nodup →
        ∀ e ∈ (reconcileSend sendOk saved events).1,
          findEvent (reconcileSend sendOk saved events).2.2 e.id = some e ∧
            (e.solve_time ≠ none → ∀ later : List Event,
              e ∉ (reconcile (reconcileSend sendOk saved events).2.2 later).1)) := by
  have heq := processEventsSend_eq sendOk events saved
  have h1 : (reconcileSend sendOk saved events).1 = (reconcile saved events).1 :=
    heq.1
  have h2 : (reconcileSend sendOk saved events).2.2 = (reconcile saved events).2 := by
    have : (reconcileSend sendOk saved events).2.2
        = retainCurrent (processEventsSend sendOk saved events).2.2 events := rfl
    rw [this, heq.2]
    rfl
  refine ⟨h1, h2, ?_⟩
  intro hnd e hmem
  rw [h1] at hmem
  have hev : e ∈ events :=
    (processEvents_fst_sublist events saved).subset hmem
  have hnot : storedResolved saved e.id = false :=
    (processEvents_mem_notify_iff events saved hnd e hev).mp hmem
  have hfind : findEvent (reconcileSend sendOk saved events).2.2 e.id = some e := by
    rw [h2]
    have hc5 := findEvent_processEvents_mem events saved hnd e hev
    have hr : (reconcile saved events).2
        = retainCurrent (processEvents saved events).2 events := rfl
    have hany : events.any (fun x => x.id == e.id) = true :=
      List.any_eq_true.mpr ⟨e, hev, by simp⟩
    rw [hr, findEvent_retainCurrent, if_pos hany, hc5, hnot]
    rfl
  refine ⟨hfind, ?_⟩
  intro hres later
  have hsr : storedResolved (reconcileSend sendOk saved events).2.2 e.id = true := by
    rw [storedResolved, hfind]
    exact bne_iff_ne.mpr hres
  have hskip :=
    (processEvents_resolved_skip later (reconcileSend sendOk saved events).2.2
      e.id hsr).1
  intro hmem'
  exact hskip e hmem' rfl

/-- Witness for C10: with a send oracle that always fails, a fresh
resolved event is still committed to state and is not notified by the
next reconcile over the same snapshot. -/
theorem c10_send_failure_does_not_block_commit_witness :
    findEvent (reconcileSend (fun _ => false) [] [sampleResolvedA]).2.2
        sampleResolvedA.id = some sampleResolvedA ∧
      sampleResolvedA ∉
        (reconcile (reconcileSend (fun _ => false) [] [sampleResolvedA]).2.2
          [sampleResolvedA]).1 := by
  have h := (c10_send_failure_does_not_block_commit (fun _ => false) []
      [sampleResolvedA]).2.2 (by decide) sampleResolvedA (by decide)
  exact ⟨h.1, h.2 (by decide) [sampleResolvedA]⟩

end TarkovStatus
